import Mathlib

/-
  Verification development for the api-gateway repository.

  Each definition below is a shallow embedding of a function of the Go
  source (file and symbol named in its doc comment).  External
  collaborators (MongoDB, SHA-256/HMAC primitives, JSON parsing) are
  modelled abstractly: the document store as a function from ids to
  documents, the crypto primitives as parameters, JSON-frame
  classification as a Bool-valued parameter.  Machine integers are
  modelled as Int with explicit two's-complement wrapping where Go's
  int64 overflow is observable.
-/

namespace ApiGateway

/-! ## Client store (repository/client_mongo.go, model/client.go) -/

/-- The billing-relevant fields of a stored client document
(`model.Client`): remaining `call_count` and cumulative `total_count`. -/
structure ClientDoc where
  callCount : Int
  totalCount : Int
deriving DecidableEq, Repr

/-- The `gw_clients` collection, keyed by `_id`. -/
def ClientStore : Type := Nat → Option ClientDoc

/-- Embeds `ClientMongoRepository.DeductCallCount`: a single
`FindOneAndUpdate` with filter `{_id: id, call_count: {$gt: 0}}` and update
`{$inc: {call_count: -1}}`.  The filter and update execute as one atomic
conditional step; `mongo.ErrNoDocuments` (id absent or zero balance) becomes
the `insufficient calls` error and the store is untouched. -/
def deductCallCount (store : ClientStore) (id : Nat) :
    Except String Unit × ClientStore :=
  match store id with
  | some doc =>
    if 0 < doc.callCount then
      (Except.ok (),
       fun j => if j = id then
          some { doc with callCount := doc.callCount - 1 }
        else store j)
    else
      (Except.error "insufficient calls", store)
  | none => (Except.error "insufficient calls", store)

/-- All stored documents have a non-negative `call_count`. -/
def nonnegStore (store : ClientStore) : Prop :=
  ∀ j d, store j = some d → 0 ≤ d.callCount

/-- The store after an arbitrary sequence of `DeductCallCount` calls. -/
def applyDeducts (store : ClientStore) (ids : List Nat) : ClientStore :=
  ids.foldl (fun s i => (deductCallCount s i).2) store

/-! ## Quota-deduct middleware (BillingMiddleware.DeductCalls) -/

/-- Embeds `BillingMiddleware.DeductCalls`, the part that runs after
`c.Next()` has produced the final response.  Inputs: the store, the final
response status (`c.Writer.Status()`), the `billing_checked` context flag
set by `CheckCalls`, and the client id from the context (`none` when the
`client` key is absent).  Output: the store after the middleware, the
status of the already-sent response (the middleware never writes to the
response), and whether `DeductCallCount` was invoked.  A failed deduction
is only logged, so the store is whatever `deductCallCount` left behind. -/
def deductCalls (store : ClientStore) (finalStatus : Nat)
    (billingChecked : Bool) (clientId : Option Nat) :
    ClientStore × Nat × Bool :=
  if finalStatus ≠ 200 then (store, finalStatus, false)
  else if ¬ billingChecked then (store, finalStatus, false)
  else
    match clientId with
    | none => (store, finalStatus, false)
    | some id => ((deductCallCount store id).2, finalStatus, true)

/-! ## Int64 wrapping arithmetic (Go machine integers) -/

/-- Reduce an integer to its two's-complement int64 representative in
`[-2^63, 2^63)`. -/
def wrap64 (x : Int) : Int := (x + 2 ^ 63) % 2 ^ 64 - 2 ^ 63

/-- Go `int64` subtraction (wraps on overflow). -/
def i64sub (a b : Int) : Int := wrap64 (a - b)

/-- Go `int64` negation (wraps on `-minInt64`). -/
def i64neg (a : Int) : Int := wrap64 (-a)

/-- Go `int64` multiplication (wraps on overflow). -/
def i64mul (a b : Int) : Int := wrap64 (a * b)

/-! ## HMAC signature verifier (middleware, HMACSignatureValidator) -/

/-- All-digit check and decimal value of a non-empty digit run, as in
`strconv.ParseInt` base 10. -/
def parseDigits : List Char → Option Nat
  | [] => none
  | c :: rest =>
    if (c :: rest).all Char.isDigit then
      some ((c :: rest).foldl (fun a d => a * 10 + (d.toNat - 48)) 0)
    else none

/-- Embeds `strconv.ParseInt(s, 10, 64)` as used by `validateTimestamp`:
optional sign, at least one digit, value within the int64 range; any
violation is the parse error. -/
def goParseInt64 (s : String) : Option Int :=
  let signDigits : Int × List Char :=
    match s.data with
    | c :: rest =>
      if c = '+' then (1, rest)
      else if c = '-' then (-1, rest)
      else (1, s.data)
    | [] => (1, [])
  match parseDigits signDigits.2 with
  | none => none
  | some n =>
    let v := signDigits.1 * (n : Int)
    if -(2 : Int) ^ 63 ≤ v ∧ v ≤ 2 ^ 63 - 1 then some v else none

/-- The crypto primitives the validator calls (Go `crypto/sha256`,
`crypto/hmac`, `encoding/base64`), abstract here: `sha256Hex body` is the
lowercase-hex SHA-256 of the body bytes, `hmacSha256B64 secret msg` is the
base64 HMAC-SHA256 tag of `msg` under `secret`. -/
structure HmacEnv where
  sha256Hex : String → String
  hmacSha256B64 : String → String → String

/-- Embeds `HMACSignatureValidator.GenerateSignature`: the canonical string
is `METHOD\nPATH\nTS\nBODYHEX`, signed with HMAC-SHA256 and base64
encoded. -/
def generateSignature (env : HmacEnv)
    (method path timestamp bodyHash secret : String) : String :=
  env.hmacSha256B64 secret
    (method ++ "\n" ++ path ++ "\n" ++ timestamp ++ "\n" ++ bodyHash)

/-- Embeds `HMACSignatureValidator.validateTimestamp`.  `now` is
`time.Now().Unix()` (seconds), `window` the configured time window in
nanoseconds (`time.Duration`).  The arithmetic is Go int64 arithmetic:
`timeDiff := now - ts`, absolute value by conditional negation, and the
comparison `time.Duration(timeDiff)*time.Second > window`, whose
multiplication by 10^9 wraps on overflow. -/
def validateTimestampGo (now window : Int) (tsStr : String) :
    Except String Unit :=
  match goParseInt64 tsStr with
  | none => Except.error "invalid timestamp format"
  | some ts =>
    let d0 := i64sub now ts
    let d1 := if d0 < 0 then i64neg d0 else d0
    if window < i64mul d1 1000000000 then Except.error "timestamp expired"
    else Except.ok ()

/-- Embeds `HMACSignatureValidator.ValidateSignature`.  Headers are given
as strings, the empty string standing for an absent header (Go
`Header.Get`).  The body hash is `sha256Hex body` (an absent body is the
empty string, so its hash is the hash of the empty input).  The final
comparison embeds `hmac.Equal` on the byte strings, whose functional
content is equality. -/
def validateSignatureGo (env : HmacEnv) (sig tsStr : String)
    (now window : Int) (method path body secret : String) :
    Except String Unit :=
  if sig = "" then Except.error "missing signature"
  else if tsStr = "" then Except.error "missing timestamp"
  else
    match validateTimestampGo now window tsStr with
    | Except.error e => Except.error e
    | Except.ok _ =>
      let bodyHash := env.sha256Hex body
      let expected := generateSignature env method path tsStr bodyHash secret
      if sig = expected then Except.ok ()
      else Except.error "invalid signature"

/-! ## Token-bucket rate limiter (middleware, TokenBucket) -/

/-- The in-memory `TokenBucket` state.  `lastRefill` and the current time
are integer nanoseconds; `int(elapsed.Seconds())` is division by 10^9
truncated toward zero (`Int.tdiv`). -/
structure TokenBucket where
  capacity : Int
  tokens : Int
  refillRate : Int
  lastRefill : Int
deriving DecidableEq, Repr

/-- Embeds `TokenBucket.TakeToken` (the body runs under the bucket's own
mutex): refill by `int(elapsed.Seconds()) * refillRate`, cap at capacity,
advance `lastRefill` only when the refill amount is positive, then admit
and decrement iff a token is available. -/
def takeToken (tb : TokenBucket) (now : Int) : Bool × TokenBucket :=
  let elapsed := now - tb.lastRefill
  let tokensToAdd := Int.tdiv elapsed 1000000000 * tb.refillRate
  let tb1 :=
    if 0 < tokensToAdd then
      let t0 := tb.tokens + tokensToAdd
      let t1 := if tb.capacity < t0 then tb.capacity else t0
      { tb with tokens := t1, lastRefill := now }
    else tb
  if 0 < tb1.tokens then (true, { tb1 with tokens := tb1.tokens - 1 })
  else (false, tb1)

/-- Embeds the rejection path of `RateLimitMiddleware.RateLimit`: on a
failed `TakeToken` the middleware aborts with HTTP 429 and business code
42902 (`errors.ErrRateLimitExceeded`). -/
def rateLimitStep (tb : TokenBucket) (now : Int) :
    Except (Nat × Nat) Unit × TokenBucket :=
  let r := takeToken tb now
  (if r.1 then Except.ok () else Except.error (429, 42902), r.2)

/-! ## Upstream error classification (handler, ProxyHandler) -/

/-- Does the needle occur at the head of the haystack? -/
def charsLeadWith : List Char → List Char → Bool
  | [], _ => true
  | _ :: _, [] => false
  | a :: as, b :: bs => a = b && charsLeadWith as bs

/-- Substring occurrence on character lists (Go `strings.Contains`). -/
def containsSubAux (needle : List Char) : List Char → Bool
  | [] => needle.isEmpty
  | c :: rest => charsLeadWith needle (c :: rest) || containsSubAux needle rest

/-- Go `strings.Contains s sub`. -/
def strContains (s sub : String) : Bool := containsSubAux sub.data s.data

/-- Embeds `ProxyHandler.handleUpstreamError` on the upstream error text:
result is (HTTP status, business code, `upstream_message` data field;
`none` for the timeout error whose data is nil). -/
def classifyUpstreamError (e : String) : Nat × Nat × Option String :=
  if strContains e "timeout" || strContains e "deadline exceeded" then
    (504, 50401, none)
  else if strContains e "connection refused" || strContains e "no such host" then
    (502, 50402, some "上游服务不可用")
  else
    (502, 50402, some ("上游服务错误: " ++ e))

/-! ## Call-log stream capture (middleware/logging.go) -/

/-- Strip leading and trailing whitespace (Go `strings.TrimSpace`). -/
def trimChars (cs : List Char) : List Char :=
  ((cs.dropWhile Char.isWhitespace).reverse.dropWhile Char.isWhitespace).reverse

/-- Split a character list at newline characters (Go `strings.Split`
with separator `"\n"`). -/
def splitLines : List Char → List (List Char)
  | [] => [[]]
  | c :: t =>
    match splitLines t with
    | [] => [[]]
    | l :: ls => if c = '\n' then [] :: l :: ls else (c :: l) :: ls

/-- Embeds the line loop of
`loggingResponseWriter.parseCompleteStreamData`.  `isTerminalFrame d`
abstracts `json.Unmarshal(d)` succeeding with a `type` field equal to
`complete` or `error`.  Each line is trimmed; on a `data: ` line whose
payload is a terminal frame the loop RETURNS that payload at once;
otherwise it continues; the default result is the empty string. -/
def parseStreamLines (isTerminalFrame : String → Bool) :
    List (List Char) → String
  | [] => ""
  | l :: rest =>
    let line := trimChars l
    if charsLeadWith ("data: ").data line then
      let d := String.mk (line.drop 6)
      if isTerminalFrame d then d
      else parseStreamLines isTerminalFrame rest
    else parseStreamLines isTerminalFrame rest

/-- Embeds `loggingResponseWriter.parseCompleteStreamData` on the
collected stream buffer. -/
def parseCompleteStreamData (isTerminalFrame : String → Bool)
    (content : String) : String :=
  parseStreamLines isTerminalFrame (splitLines content.data)

/-- Embeds `loggingResponseWriter.Write` for a stream request: the chunk
is appended to the parallel capture buffer and the identical chunk is
forwarded to the underlying writer. -/
def streamWrite (streamBuffer : String) (data : String) : String × String :=
  (streamBuffer ++ data, data)

/-! ## Worker callback retry (worker, WorkerPool.executeCallback) -/

/-- The outcome of one HTTP callback attempt: `none` is a transport error,
`some st` a response with status `st`. -/
def AttemptOutcome : Type := Option Nat

/-- Is an attempt outcome a [200,300) response? -/
def is2xx : Option Nat → Bool
  | none => false
  | some st => decide (200 ≤ st ∧ st < 300)

/-- Embeds the retry loop of `WorkerPool.executeCallback` over the attempt
indices still to run.  `maxRetries` is 3 in the source.  Accumulators:
`attempts` counts the `IncrementCallbackAttempts` calls (one immediately
after every `httpClient.Do`), `sleeps` the `time.Sleep` durations in
seconds, in order.  Result: (attempts, success, sleeps). -/
def callbackAux (responses : Nat → Option Nat) (maxRetries : Nat)
    (attempts : Nat) (sleeps : List Nat) :
    List Nat → Nat × Bool × List Nat
  | [] => (attempts, false, sleeps)
  | i :: rest =>
    match responses i with
    | some st =>
      if 200 ≤ st ∧ st < 300 then (attempts + 1, true, sleeps)
      else if i < maxRetries - 1 then
        callbackAux responses maxRetries (attempts + 1)
          (sleeps ++ [(i + 1) * 5]) rest
      else (attempts + 1, false, sleeps)
    | none =>
      if i < maxRetries - 1 then
        callbackAux responses maxRetries (attempts + 1)
          (sleeps ++ [(i + 1) * 5]) rest
      else (attempts + 1, false, sleeps)

/-- Embeds `WorkerPool.executeCallback`: the `for i := 0; i < 3; i++`
retry loop, with the i-th attempt's outcome given by `responses i`. -/
def executeCallback (responses : Nat → Option Nat) :
    Nat × Bool × List Nat :=
  callbackAux responses 3 0 [] (List.range 3)

/-! ## Async submit header collection (middleware, AsyncMiddleware) -/

/-- Valid MIME header token byte (Go `net/textproto` `isTokenTable`):
letters, digits and `! # $ % & apostrophe * + - . ^ _ backtick | ~`. -/
def isTokenChar (c : Char) : Bool :=
  c.isAlphanum ||
    [33, 35, 36, 37, 38, 39, 42, 43, 45, 46, 94, 95, 96, 124, 126].contains
      c.toNat

/-- The case-folding pass of `textproto.CanonicalMIMEHeaderKey`: uppercase
at the start and after each hyphen, lowercase elsewhere. -/
def canonHeaderAux : Bool → List Char → List Char
  | _, [] => []
  | upper, c :: rest =>
    let c1 := if upper then c.toUpper else c.toLower
    c1 :: canonHeaderAux (c1 = '-') rest

/-- Embeds Go `net/textproto.CanonicalMIMEHeaderKey`, the form in which
the HTTP server stores every inbound header key in `Request.Header`
(keys with an invalid byte are left unchanged). -/
def canonicalMIMEHeaderKey (s : String) : String :=
  if s.data.all isTokenChar then String.mk (canonHeaderAux true s.data)
  else s

/-- Embeds `middleware.isSensitiveHeader`: exact string comparison of the
(already canonicalized) map key against the five listed names. -/
def isSensitiveHeader (key : String) : Bool :=
  ["Authorization", "X-API-Key", "X-Signature", "X-Secret", "Cookie"].any
    (fun h => key = h)

/-- The value list under canonical key `k` of the request-header map built
by the Go HTTP server from the raw inbound header pairs, in arrival
order. -/
def headerValues (inbound : List (String × String)) (k : String) :
    List String :=
  (inbound.filter (fun p => canonicalMIMEHeaderKey p.1 = k)).map
    (fun p => p.2)

/-- Embeds the header-collection loop of `AsyncMiddleware.HandleAsync`:
for every key of `c.Request.Header` with a non-empty value list that
`isSensitiveHeader` does not match, the first value is stored in the
task's `Headers` map. -/
def taskHeaders (inbound : List (String × String)) (k : String) :
    Option String :=
  if isSensitiveHeader k then none else (headerValues inbound k).head?

/-! ## Worker loop and queue dequeue (worker, RedisTaskQueue) -/

/-- A dequeued task (payload irrelevant to the worker-loop control flow). -/
structure TaskM where
  taskId : String
deriving DecidableEq, Repr

/-- The error of a failed `Dequeue`, as the worker can observe it. -/
inductive DequeueErr where
  | canceled
  | deadlineExceeded
  | wrapped (msg : String)
deriving DecidableEq, Repr

/-- The raw result of the `BRPop` call inside `RedisTaskQueue.Dequeue`. -/
inductive BRPopOutcome where
  | redisNil
  | ctxCanceled
  | ctxDeadline
  | otherErr (msg : String)
  | reply (kv : List String)
deriving DecidableEq, Repr

/-- Embeds `RedisTaskQueue.Dequeue`: `redis.Nil` becomes (nil task, nil
error); `context.Canceled` and `context.DeadlineExceeded` are returned
verbatim; any other error is wrapped; a reply with fewer than two items is
invalid; otherwise the second item is unmarshalled by `parse`. -/
def dequeueModel (parse : String → Option TaskM) :
    BRPopOutcome → Except DequeueErr (Option TaskM)
  | BRPopOutcome.redisNil => Except.ok none
  | BRPopOutcome.ctxCanceled => Except.error DequeueErr.canceled
  | BRPopOutcome.ctxDeadline => Except.error DequeueErr.deadlineExceeded
  | BRPopOutcome.otherErr m =>
    Except.error (DequeueErr.wrapped ("failed to dequeue task: " ++ m))
  | BRPopOutcome.reply kv =>
    match kv with
    | _ :: v :: _ =>
      match parse v with
      | some t => Except.ok (some t)
      | none => Except.error (DequeueErr.wrapped "failed to unmarshal task")
    | _ => Except.error (DequeueErr.wrapped "invalid BRPOP result")

/-- What a worker-loop iteration does next. -/
inductive WorkerAction where
  | exit
  | continueLoop
  | process (t : TaskM)
deriving DecidableEq, Repr

/-- Embeds one iteration of `WorkerPool.worker`: if the pool context is
done, exit; on any dequeue error, exit (non-cancellation errors are merely
logged first); on a nil task, continue; otherwise process the task. -/
def workerStep (ctxDone : Bool)
    (dq : Except DequeueErr (Option TaskM)) : WorkerAction :=
  if ctxDone then WorkerAction.exit
  else
    match dq with
    | Except.error _ => WorkerAction.exit
    | Except.ok none => WorkerAction.continueLoop
    | Except.ok (some t) => WorkerAction.process t

/-! ## Task list limit clamping (handler/task.go) -/

/-- Embeds Go `strconv.Atoi` as used (error ignored): a syntactically
invalid string yields 0; a syntactically valid value outside the int64
range yields the saturated boundary value (Go returns the clamped value
together with `ErrRange`). -/
def goAtoi (s : String) : Int :=
  let signDigits : Int × List Char :=
    match s.data with
    | c :: rest =>
      if c = '+' then (1, rest)
      else if c = '-' then (-1, rest)
      else (1, s.data)
    | [] => (1, [])
  match parseDigits signDigits.2 with
  | none => 0
  | some n =>
    let v := signDigits.1 * (n : Int)
    if v < -(2 : Int) ^ 63 then -(2 : Int) ^ 63
    else if (2 : Int) ^ 63 - 1 < v then (2 : Int) ^ 63 - 1
    else v

/-- Embeds the limit handling of `TaskHandler.ListTasks`:
`limit, _ := strconv.Atoi(c.DefaultQuery("limit", "10"))` followed by
`if limit > 100 { limit = 100 }`; the result is passed to
`GetTasksByClient` unchanged. -/
def listTasksLimit (limitQuery : Option String) : Int :=
  let l := goAtoi (limitQuery.getD "10")
  if 100 < l then 100 else l

/-- Decidable equality for `Except` results, used to evaluate the embedded
functions on concrete inputs. -/
instance exceptDecEq {ε α : Type} [DecidableEq ε] [DecidableEq α] :
    DecidableEq (Except ε α) := fun a b =>
  match a, b with
  | Except.ok x, Except.ok y =>
    if h : x = y then Decidable.isTrue (congrArg Except.ok h)
    else Decidable.isFalse (fun hc => h (by injection hc))
  | Except.error x, Except.error y =>
    if h : x = y then Decidable.isTrue (congrArg Except.error h)
    else Decidable.isFalse (fun hc => h (by injection hc))
  | Except.ok _, Except.error _ => Decidable.isFalse (fun hc => Except.noConfusion hc)
  | Except.error _, Except.ok _ => Decidable.isFalse (fun hc => Except.noConfusion hc)

/-! ## Helper lemmas about the client store -/

/-- `DeductCallCount` succeeds exactly when the document exists with a
positive balance. -/
theorem deductCallCount_ok_iff (store : ClientStore) (id : Nat) :
    (deductCallCount store id).1 = Except.ok () ↔
      ∃ d, store id = some d ∧ 0 < d.callCount := by
  cases hs : store id with
  | none => simp [deductCallCount, hs]
  | some doc =>
    by_cases hpos : 0 < doc.callCount <;>
      simp [deductCallCount, hs, hpos]

/-- On success, `DeductCallCount` decrements `call_count` by exactly one,
keeps `total_count`, and touches no other document. -/
theorem deductCallCount_success (store : ClientStore) (id : Nat)
    (d : ClientDoc) (hd : store id = some d) (hpos : 0 < d.callCount) :
    (deductCallCount store id).2 id
        = some { callCount := d.callCount - 1, totalCount := d.totalCount } ∧
    ∀ j, j ≠ id → (deductCallCount store id).2 j = store j := by
  constructor
  · simp [deductCallCount, hd, hpos]
  · intro j hj
    simp [deductCallCount, hd, hpos, hj]

/-- On anything but success, `DeductCallCount` returns the
`insufficient calls` error and leaves the store untouched. -/
theorem deductCallCount_fail (store : ClientStore) (id : Nat)
    (h : (deductCallCount store id).1 ≠ Except.ok ()) :
    (deductCallCount store id).1 = Except.error "insufficient calls" ∧
    (deductCallCount store id).2 = store := by
  cases hs : store id with
  | none => simp [deductCallCount, hs]
  | some doc =>
    by_cases hpos : 0 < doc.callCount
    · exact absurd (by simp [deductCallCount, hs, hpos]) h
    · simp [deductCallCount, hs, hpos]

/-- One `DeductCallCount` step preserves non-negativity of every stored
balance. -/
theorem deductCallCount_nonneg (store : ClientStore) (id : Nat)
    (h : nonnegStore store) : nonnegStore (deductCallCount store id).2 := by
  intro j d hj
  cases hs : store id with
  | none =>
    simp [deductCallCount, hs] at hj
    exact h j d hj
  | some doc =>
    by_cases hpos : 0 < doc.callCount
    · simp [deductCallCount, hs, hpos] at hj
      by_cases hji : j = id
      · simp [hji] at hj
        cases hj
        show (0 : Int) ≤ doc.callCount - 1
        omega
      · simp [hji] at hj
        exact h j d hj
    · simp [deductCallCount, hs, hpos] at hj
      exact h j d hj

/-- Any sequence of `DeductCallCount` calls preserves non-negativity. -/
theorem applyDeducts_nonneg (ids : List Nat) (store : ClientStore)
    (h : nonnegStore store) : nonnegStore (applyDeducts store ids) := by
  induction ids generalizing store with
  | nil => exact h
  | cons i rest ih =>
    have hstep : applyDeducts store (i :: rest)
        = applyDeducts (deductCallCount store i).2 rest := rfl
    rw [hstep]
    exact ih _ (deductCallCount_nonneg store i h)

/-! ## Claim theorems -/

/-- Claim C1: `DeductCallCount` decrements `call_count` by exactly 1 in
one conditional update exactly when the stored document has
`call_count > 0`; when the id is absent or the balance is zero it returns
the `insufficient calls` error and leaves the store unchanged; hence
`call_count` never becomes negative under any sequence of deductions. -/
theorem deduct_call_count_claim (store : ClientStore) (id : Nat) :
    ((deductCallCount store id).1 = Except.ok () ↔
      ∃ d, store id = some d ∧ 0 < d.callCount) ∧
    (∀ d, store id = some d → 0 < d.callCount →
      (deductCallCount store id).2 id
          = some { callCount := d.callCount - 1, totalCount := d.totalCount } ∧
      ∀ j, j ≠ id → (deductCallCount store id).2 j = store j) ∧
    ((deductCallCount store id).1 ≠ Except.ok () →
      (deductCallCount store id).1 = Except.error "insufficient calls" ∧
      (deductCallCount store id).2 = store) ∧
    (nonnegStore store → ∀ ids, nonnegStore (applyDeducts store ids)) :=
  ⟨deductCallCount_ok_iff store id,
   fun d hd hpos => deductCallCount_success store id d hd hpos,
   fun h => deductCallCount_fail store id h,
   fun h ids => applyDeducts_nonneg ids store h⟩

/-- Witness for C1 at a concrete store holding one client with balance 2:
the deduction succeeds, the balance drops to 1 with `total_count` intact,
and three successive deductions keep every balance non-negative. -/
theorem deduct_call_count_claim_witness :
    (deductCallCount (fun j => if j = 0 then some ⟨2, 5⟩ else none) 0).1
        = Except.ok () ∧
    (deductCallCount (fun j => if j = 0 then some ⟨2, 5⟩ else none) 0).2 0
        = some ⟨1, 5⟩ ∧
    nonnegStore
      (applyDeducts (fun j => if j = 0 then some ⟨2, 5⟩ else none) [0, 0, 0]) := by
  have h := deduct_call_count_claim (fun j => if j = 0 then some ⟨2, 5⟩ else none) 0
  refine ⟨h.1.mpr ⟨⟨2, 5⟩, rfl, by decide⟩, ?_, ?_⟩
  · have h2 := (h.2.1 ⟨2, 5⟩ rfl (by decide)).1
    rw [h2]
    decide
  · refine h.2.2.2 ?_ [0, 0, 0]
    intro j d hd
    by_cases hj : j = 0
    · subst hj
      simp at hd
      cases hd
      decide
    · simp [hj] at hd

/-- Claim C2: once the quota-check middleware has run
(`billing_checked = true`, client attached), the quota-deduct middleware
invokes `DeductCallCount` iff the final status is 200; for a 200 response
the client's `call_count` drops by exactly 1 and `total_count` is
unchanged; for any other status the store is untouched; and in every case
— deduction failure included — the already-sent response status is not
rewritten. -/
theorem deduct_calls_middleware_claim (store : ClientStore) (status : Nat)
    (cid : Nat) :
    ((deductCalls store status true (some cid)).2.2 = true ↔ status = 200) ∧
    (deductCalls store status true (some cid)).2.1 = status ∧
    (status ≠ 200 → (deductCalls store status true (some cid)).1 = store) ∧
    (status = 200 →
      (deductCalls store status true (some cid)).1
          = (deductCallCount store cid).2 ∧
      (∀ d, store cid = some d → 0 < d.callCount →
        (deductCalls store status true (some cid)).1 cid
            = some { callCount := d.callCount - 1, totalCount := d.totalCount } ∧
        ∀ j, j ≠ cid →
          (deductCalls store status true (some cid)).1 j = store j) ∧
      ((deductCallCount store cid).1 = Except.error "insufficient calls" →
        (deductCalls store status true (some cid)).1 = store)) := by
  by_cases hst : status = 200
  · subst hst
    refine ⟨by simp [deductCalls], by simp [deductCalls], by simp, ?_⟩
    intro _
    refine ⟨by simp [deductCalls], ?_, ?_⟩
    · intro d hd hpos
      have hs := deductCallCount_success store cid d hd hpos
      exact ⟨by simpa [deductCalls] using hs.1,
             fun j hj => by simpa [deductCalls] using hs.2 j hj⟩
    · intro herr
      have hne : (deductCallCount store cid).1 ≠ Except.ok () := by
        rw [herr]
        intro hc
        exact Except.noConfusion hc
      have := (deductCallCount_fail store cid hne).2
      simpa [deductCalls] using this
  · refine ⟨by simp [deductCalls, hst], by simp [deductCalls, hst],
      fun _ => by simp [deductCalls, hst], fun h => absurd h hst⟩

/-- Witness for C2: with a balance-2 client, a 200 response deducts one
call (invoked = true) and a 500 response leaves the store untouched
(invoked = false), with the response status unchanged in both cases. -/
theorem deduct_calls_middleware_claim_witness :
    (deductCalls (fun j => if j = 0 then some ⟨2, 5⟩ else none) 200 true
        (some 0)).2.2 = true ∧
    (deductCalls (fun j => if j = 0 then some ⟨2, 5⟩ else none) 200 true
        (some 0)).1 0 = some ⟨1, 5⟩ ∧
    (deductCalls (fun j => if j = 0 then some ⟨2, 5⟩ else none) 200 true
        (some 0)).2.1 = 200 ∧
    (deductCalls (fun j => if j = 0 then some ⟨2, 5⟩ else none) 500 true
        (some 0)).2.2 = false ∧
    (deductCalls (fun j => if j = 0 then some ⟨2, 5⟩ else none) 500 true
        (some 0)).1 = (fun j => if j = 0 then some ⟨2, 5⟩ else none) := by
  have h200 := deduct_calls_middleware_claim
    (fun j => if j = 0 then some ⟨2, 5⟩ else none) 200 0
  have h500 := deduct_calls_middleware_claim
    (fun j => if j = 0 then some ⟨2, 5⟩ else none) 500 0
  refine ⟨h200.1.mpr rfl, ?_, h200.2.1, ?_, h500.2.2.1 (by decide)⟩
  · have hv := ((h200.2.2.2 rfl).2.1 ⟨2, 5⟩ rfl (by decide)).1
    rw [hv]
    decide
  · by_contra hc
    exact absurd (h500.1.mp (by revert hc; cases (deductCalls
      (fun j => if j = 0 then some ⟨2, 5⟩ else none) 500 true (some 0)).2.2 <;>
        simp)) (by decide)

/-- Claim C3 (evaluation at the failing input): for the timestamp
`ts = 1700000000 - 2^55` — about 36 million times farther in the past than
the 5-minute window, so `|now - ts| > 300` seconds — the validator does
NOT return `timestamp expired`: in `time.Duration(timeDiff)*time.Second`
the int64 product `2^55 * 10^9` wraps to 0, the window check passes, and a
correctly signed request verifies with `ok`.  The claim (and the spec's
step 3) requires `timestamp expired` here. -/
theorem signature_timestamp_overflow_eval :
    (300 : Int) < 1700000000 - (-36028795318963968) ∧
    i64mul (i64sub 1700000000 (-36028795318963968)) 1000000000 = 0 ∧
    validateSignatureGo
      { sha256Hex := fun b => "sha256[" ++ b ++ "]",
        hmacSha256B64 := fun secret msg => "hmac[" ++ secret ++ "|" ++ msg ++ "]" }
      (generateSignature
        { sha256Hex := fun b => "sha256[" ++ b ++ "]",
          hmacSha256B64 := fun secret msg => "hmac[" ++ secret ++ "|" ++ msg ++ "]" }
        "POST" "/api/v1/echo" "-36028795318963968"
        ("sha256[" ++ "reqbody" ++ "]") "topsecret")
      "-36028795318963968" 1700000000 300000000000
      "POST" "/api/v1/echo" "reqbody" "topsecret"
      = Except.ok () := by
  refine ⟨by decide, by decide, by decide⟩

/-- Claim C4: `TakeToken` first refills by
`floor(seconds since last_refill) * refill_rate` capped at capacity,
advancing `last_refill` only when the amount is positive, then admits with
a decrement iff a token is available before the decrement, and a rejection
surfaces as HTTP 429 with business code 42902. -/
theorem token_bucket_take_claim (tb : TokenBucket) (now add pre : Int)
    (hnow : tb.lastRefill ≤ now)
    (hadd : add = (((now - tb.lastRefill).toNat / 1000000000 : Nat) : Int)
        * tb.refillRate)
    (hpre : pre = if 0 < add then min (tb.tokens + add) tb.capacity
        else tb.tokens) :
    ((takeToken tb now).1 = true ↔ 0 < pre) ∧
    ((takeToken tb now).2.tokens = if 0 < pre then pre - 1 else pre) ∧
    ((takeToken tb now).2.lastRefill
        = if 0 < add then now else tb.lastRefill) ∧
    ((takeToken tb now).2.capacity = tb.capacity) ∧
    ((takeToken tb now).2.refillRate = tb.refillRate) ∧
    ((takeToken tb now).1 = false →
      (rateLimitStep tb now).1 = Except.error (429, 42902)) := by
  have helapsed : now - tb.lastRefill
      = ((now - tb.lastRefill).toNat : Int) :=
    (Int.toNat_of_nonneg (by omega)).symm
  have hdiv : Int.tdiv (now - tb.lastRefill) 1000000000
      = (((now - tb.lastRefill).toNat / 1000000000 : Nat) : Int) := by
    rw [helapsed]
    rfl
  have haddeq : Int.tdiv (now - tb.lastRefill) 1000000000 * tb.refillRate
      = add := by rw [hdiv, hadd]
  have hmin : ∀ t0 : Int, (if tb.capacity < t0 then tb.capacity else t0)
      = min t0 tb.capacity := by
    intro t0
    rw [min_def]
    split_ifs <;> omega
  unfold takeToken rateLimitStep
  simp only [haddeq, hmin]
  by_cases hposadd : 0 < add
  · simp only [hposadd, if_true]
    subst hpre
    simp only [hposadd, if_true]
    by_cases htok : 0 < min (tb.tokens + add) tb.capacity <;>
      simp [hposadd, htok, takeToken, haddeq, hmin]
  · simp only [hposadd, if_false]
    subst hpre
    simp only [hposadd, if_false]
    by_cases htok : 0 < tb.tokens <;>
      simp [hposadd, htok, takeToken, haddeq, hmin]

/-- Witness for C4: a bucket with capacity 5, 0 tokens, rate 5, refilled
after 2 seconds, caps the refill at 5, admits and leaves 4 tokens; and an
empty bucket with no elapsed time rejects with 429/42902. -/
theorem token_bucket_take_claim_witness :
    (takeToken ⟨5, 0, 5, 0⟩ 2000000000).1 = true ∧
    (takeToken ⟨5, 0, 5, 0⟩ 2000000000).2.tokens = 4 ∧
    (rateLimitStep ⟨5, 0, 5, 0⟩ 500000000).1 = Except.error (429, 42902) := by
  have h := token_bucket_take_claim ⟨5, 0, 5, 0⟩ 2000000000 10 5
    (by decide) (by decide) (by decide)
  have h0 := token_bucket_take_claim ⟨5, 0, 5, 0⟩ 500000000 0 0
    (by decide) (by decide) (by decide)
  refine ⟨h.1.mpr (by decide), ?_, ?_⟩
  · rw [h.2.1]
    decide
  · refine h0.2.2.2.2.2 ?_
    rw [show ((takeToken ⟨5, 0, 5, 0⟩ 500000000).1 = false)
      ↔ ¬ ((takeToken ⟨5, 0, 5, 0⟩ 500000000).1 = true) from by
        cases (takeToken ⟨5, 0, 5, 0⟩ 500000000).1 <;> simp]
    intro hc
    exact absurd (h0.1.mp hc) (by decide)

/-- Claim C5: the upstream transport error is classified by its text, in
order: `timeout` / `deadline exceeded` gives 504 with code 50401; else
`connection refused` / `no such host` gives 502 with code 50402 and
upstream message `上游服务不可用`; otherwise 502 with code 50402 and
upstream message `上游服务错误: <err>`. -/
theorem upstream_error_classification_claim (e : String) :
    ((strContains e "timeout" = true ∨ strContains e "deadline exceeded" = true) →
      classifyUpstreamError e = (504, 50401, none)) ∧
    (strContains e "timeout" = false → strContains e "deadline exceeded" = false →
      (strContains e "connection refused" = true ∨
        strContains e "no such host" = true) →
      classifyUpstreamError e = (502, 50402, some "上游服务不可用")) ∧
    (strContains e "timeout" = false → strContains e "deadline exceeded" = false →
      strContains e "connection refused" = false →
      strContains e "no such host" = false →
      classifyUpstreamError e = (502, 50402, some ("上游服务错误: " ++ e))) := by
  refine ⟨?_, ?_, ?_⟩
  · intro h
    rcases h with h | h <;> simp [classifyUpstreamError, h]
  · intro h1 h2 h
    rcases h with h | h <;> simp [classifyUpstreamError, h1, h2, h]
  · intro h1 h2 h3 h4
    simp [classifyUpstreamError, h1, h2, h3, h4]

/-- Witness for C5: a `connection refused` transport error is mapped to
502 with code 50402 and upstream message `上游服务不可用` (the spec's
scenario 6), and a timeout text to 504 with code 50401. -/
theorem upstream_error_classification_claim_witness :
    classifyUpstreamError "dial tcp 10.0.0.7:80: connect: connection refused"
        = (502, 50402, some "上游服务不可用") ∧
    classifyUpstreamError "context deadline exceeded"
        = (504, 50401, none) := by
  refine ⟨?_, ?_⟩
  · exact (upstream_error_classification_claim
      "dial tcp 10.0.0.7:80: connect: connection refused").2.1
      (by decide) (by decide) (Or.inl (by decide))
  · exact (upstream_error_classification_claim
      "context deadline exceeded").1 (Or.inr (by decide))

/-- Claim C6 (evaluation at the failing input): the stream chunks are
passed through to the client unchanged, but for a stream carrying TWO
terminal frames (`frameA` then `frameB`, both accepted by the
terminal-frame predicate) `parseCompleteStreamData` persists the FIRST
one, `frameA`, because the loop returns on the first match — the claim
(and the code's own comment) says the LAST such frame, `frameB`, is what
is stored. -/
theorem stream_capture_first_frame_eval :
    streamWrite "" "data: frameA\n" = ("data: frameA\n", "data: frameA\n") ∧
    (fun d => d = "frameA" || d = "frameB") "frameB" = true ∧
    parseCompleteStreamData (fun d => d = "frameA" || d = "frameB")
        "data: keepalive\ndata: frameA\ndata: frameB\n" = "frameA" ∧
    "frameA" ≠ "frameB" := by
  refine ⟨rfl, by decide, by decide, by decide⟩

/-- One unrolling of the callback retry loop, keyed by whether the i-th
attempt came back 2xx. -/
theorem callbackAux_cons (responses : Nat → Option Nat) (mr attempts : Nat)
    (sleeps : List Nat) (i : Nat) (rest : List Nat) :
    callbackAux responses mr attempts sleeps (i :: rest) =
      if is2xx (responses i) = true then (attempts + 1, true, sleeps)
      else if i < mr - 1 then
        callbackAux responses mr (attempts + 1) (sleeps ++ [(i + 1) * 5]) rest
      else (attempts + 1, false, sleeps) := by
  cases hr : responses i with
  | none => simp [callbackAux, hr, is2xx]
  | some st =>
    by_cases h2 : 200 ≤ st ∧ st < 300 <;> simp [callbackAux, hr, is2xx, h2]

/-- Closed form of the three-attempt callback loop. -/
theorem executeCallback_closed (responses : Nat → Option Nat) :
    executeCallback responses =
      if is2xx (responses 0) = true then (1, true, [])
      else if is2xx (responses 1) = true then (2, true, [5])
      else if is2xx (responses 2) = true then (3, true, [5, 10])
      else (3, false, [5, 10]) := by
  have hnil : ∀ a s, callbackAux responses 3 a s [] = (a, false, s) :=
    fun _ _ => rfl
  show callbackAux responses 3 0 [] [0, 1, 2] = _
  rw [callbackAux_cons]
  cases h0 : is2xx (responses 0)
  · rw [if_neg (by simp [h0]), if_pos (by decide : (0 : Nat) < 3 - 1),
      callbackAux_cons]
    cases h1 : is2xx (responses 1)
    · rw [if_neg (by simp [h1]), if_pos (by decide : (1 : Nat) < 3 - 1),
        callbackAux_cons]
      cases h2 : is2xx (responses 2)
      · rw [if_neg (by simp [h2]), if_neg (by decide : ¬ (2 : Nat) < 3 - 1)]
        simp [h0, h1, h2, hnil]
      · rw [if_pos (by simp [h2])]
        simp [h0, h1, h2]
    · rw [if_pos (by simp [h1])]
      simp [h0, h1]
  · rw [if_pos (by simp [h0])]
    simp [h0]

/-- Claim C7: the callback loop makes at most 3 attempts and never a 4th;
`callback_attempts` is incremented once per attempt; an attempt succeeds
and stops the loop iff its response status is in [200,300); failed
attempts are followed by sleeps of 5 s before attempt 2 and 10 s before
attempt 3; after three failed attempts the counter is exactly 3. -/
theorem callback_retry_claim (responses : Nat → Option Nat) :
    (executeCallback responses).1 ≤ 3 ∧
    ((executeCallback responses).2.1 = true ↔
      is2xx (responses 0) = true ∨ is2xx (responses 1) = true ∨
        is2xx (responses 2) = true) ∧
    (is2xx (responses 0) = true →
      executeCallback responses = (1, true, [])) ∧
    (is2xx (responses 0) = false → is2xx (responses 1) = true →
      executeCallback responses = (2, true, [5])) ∧
    (is2xx (responses 0) = false → is2xx (responses 1) = false →
      is2xx (responses 2) = true →
      executeCallback responses = (3, true, [5, 10])) ∧
    (is2xx (responses 0) = false → is2xx (responses 1) = false →
      is2xx (responses 2) = false →
      executeCallback responses = (3, false, [5, 10])) := by
  cases h0 : is2xx (responses 0) <;> cases h1 : is2xx (responses 1) <;>
    cases h2 : is2xx (responses 2) <;>
      simp [executeCallback_closed, h0, h1, h2]

/-- Witness for C7 (the spec's scenario 5): a callback target that answers
500 on every attempt yields exactly 3 attempts, failure, and sleeps of 5 s
then 10 s — no 4th attempt. -/
theorem callback_retry_claim_witness :
    executeCallback (fun _ => some 500) = (3, false, [5, 10]) :=
  (callback_retry_claim (fun _ => some 500)).2.2.2.2.2
    (by decide) (by decide) (by decide)

/-- Claim C8 (evaluation at the failing input): an inbound header sent as
`X-API-Key` is stored by the Go HTTP server under its MIME-canonical key
`X-Api-Key`; `isSensitiveHeader` compares that canonical key against the
literal `X-API-Key` (the only list entry not in canonical form), does not
match, and the API key value therefore lands in the task's Headers map —
the claim says it is excluded regardless of the arriving letter case. -/
theorem async_header_leak_eval :
    canonicalMIMEHeaderKey "X-API-Key" = "X-Api-Key" ∧
    canonicalMIMEHeaderKey "x-api-key" = "X-Api-Key" ∧
    isSensitiveHeader "X-API-Key" = true ∧
    isSensitiveHeader "X-Api-Key" = false ∧
    taskHeaders [("X-API-Key", "secret-key-123")] "X-Api-Key"
        = some "secret-key-123" := by
  refine ⟨by decide, by decide, by decide, by decide, by decide⟩

/-- Claim C9 (counterexample): `Dequeue` maps a non-cancellation Redis
failure to a wrapped error, and on that outcome — which is neither a
cancellation nor an empty poll — the worker loop exits, contradicting the
claim that the worker terminates only on context cancellation. -/
theorem worker_exit_on_dequeue_error_counterexample :
    workerStep false (dequeueModel (fun _ => none)
        (BRPopOutcome.otherErr "connection refused")) = WorkerAction.exit ∧
    dequeueModel (fun _ => none) (BRPopOutcome.otherErr "connection refused")
        ≠ Except.error DequeueErr.canceled ∧
    dequeueModel (fun _ => none) (BRPopOutcome.otherErr "connection refused")
        ≠ Except.ok none := by
  refine ⟨rfl, by decide, by decide⟩

/-- Claim C9 (amended): the worker exits when its context is done, on a
cancellation error, and also on ANY other dequeue error (such errors are
logged and the worker returns); it continues on an empty poll (nil task,
nil error) and processes a returned task; `Dequeue` maps `redis.Nil` to
the empty poll, returns the cancellation verbatim, and wraps other
failures. -/
theorem worker_loop_claim (t : TaskM) (m : String)
    (parse : String → Option TaskM) :
    workerStep true (Except.ok (some t)) = WorkerAction.exit ∧
    workerStep false (Except.ok none) = WorkerAction.continueLoop ∧
    workerStep false (Except.ok (some t)) = WorkerAction.process t ∧
    workerStep false (Except.error DequeueErr.canceled) = WorkerAction.exit ∧
    workerStep false (Except.error DequeueErr.deadlineExceeded)
        = WorkerAction.exit ∧
    workerStep false (Except.error (DequeueErr.wrapped m)) = WorkerAction.exit ∧
    dequeueModel parse BRPopOutcome.redisNil = Except.ok none ∧
    dequeueModel parse BRPopOutcome.ctxCanceled
        = Except.error DequeueErr.canceled ∧
    dequeueModel parse (BRPopOutcome.otherErr m)
        = Except.error (DequeueErr.wrapped ("failed to dequeue task: " ++ m)) :=
  ⟨rfl, rfl, rfl, rfl, rfl, rfl, rfl, rfl, rfl⟩

/-- Claim C10: `ListTasks` clamps `limit` only from above at 100, defaults
a missing parameter to 10, parses a non-numeric value as 0 and passes it
unchanged, and passes any value not exceeding 100 — negative values
included — unchanged to the task store. -/
theorem list_tasks_limit_claim :
    (∀ q : Option String, listTasksLimit q = min (goAtoi (q.getD "10")) 100) ∧
    listTasksLimit none = 10 ∧
    goAtoi "abc" = 0 ∧
    listTasksLimit (some "abc") = 0 ∧
    listTasksLimit (some "-5") = -5 ∧
    listTasksLimit (some "0") = 0 ∧
    listTasksLimit (some "101") = 100 ∧
    (∀ s : String, goAtoi s ≤ 100 → listTasksLimit (some s) = goAtoi s) := by
  refine ⟨?_, by decide, by decide, by decide, by decide, by decide, by decide, ?_⟩
  · intro q
    show (if 100 < goAtoi (q.getD "10") then 100 else goAtoi (q.getD "10"))
        = min (goAtoi (q.getD "10")) 100
    rw [min_def]
    split_ifs <;> omega
  · intro s hs
    show (if 100 < goAtoi s then 100 else goAtoi s) = goAtoi s
    rw [if_neg (by omega)]

/-- Witness for C10: a negative limit of -7 is handed to the store
unchanged. -/
theorem list_tasks_limit_claim_witness :
    listTasksLimit (some "-7") = -7 := by
  have h := list_tasks_limit_claim.2.2.2.2.2.2.2 "-7" (by decide)
  rw [h]
  decide

end ApiGateway
